import Mathlib

/-!
Verification development for the ioncorecms-ssr node/block content engine.

Shallow embedding of the schema-driven content core:
* `Value` models the JSON-ish runtime values that flow through request
  bodies and persisted rows (JS numbers are modelled as integers, JS
  objects are modelled by their key set, which is all the source ever
  inspects: the `'id' in node` / `'nodeType' in node` checks).
* `AList`-style association lists model JS objects used as maps, with the
  JS insertion-order semantics: overwriting an existing key keeps its
  position, new keys are appended.
* `FieldDef` (source `FieldDefinition`), `FieldValidation`, `NodeSettings`, `NodeTypeBase` model the
  declarative schema types of `NodeRegistry.ts`; display-only attributes
  (label, description, placeholder, ui) are omitted because no embedded
  operation reads them.  The `save` / `load` / `custom` hooks are embedded
  as optional Lean functions; a throwing `load` hook is modelled by the
  `LoadResult.threw` outcome and a throwing `custom` validator by
  `CustomResult.threw`.
* `validateNodeData`, `processNodeForSave`, `processNodeForDisplay` embed
  the helper functions of `NodeBuilderController.ts`.
* `NodeRegistry.*`, `findNodeBySlug`, `resolveNodeByPath` and the request
  handlers embed `NodeRegistry.ts` and the two node controllers.  The
  persistence model handle is abstracted as its table (a list of rows
  with numeric primary keys) plus the `authorId`-attribute flag.
-/

/-- Runtime values (JS values as seen by the validation and transform
code).  Numbers are modelled as integers; objects are modelled by their
key list, which is the only information the source inspects on them. -/
inductive Value where
  | vNull
  | vStr (s : String)
  | vNum (n : Int)
  | vBool (b : Bool)
  | vArr (elems : List Value)
  | vObj (keys : List String)

/-- JS truthiness on our value model (`NaN` is not representable). -/
def Value.truthy : Value → Bool
  | .vNull => false
  | .vStr s => !(s = "")
  | .vNum n => !(n = 0)
  | .vBool b => b
  | .vArr _ => true
  | .vObj _ => true

/-- `typeof v === 'object'` (true for null, arrays and plain objects). -/
def Value.isObjType : Value → Bool
  | .vNull => true
  | .vArr _ => true
  | .vObj _ => true
  | _ => false

/-- `key in v` (property-existence test; only objects carry keys). -/
def Value.hasKey : Value → String → Bool
  | .vObj keys, k => keys.contains k
  | _, _ => false

/-- String conversion as used in template literals for slug values. -/
def Value.jsToString : Value → String
  | .vNull => "null"
  | .vStr s => s
  | .vNum n => toString n
  | .vBool b => if b then "true" else "false"
  | .vArr _ => ""
  | .vObj _ => "[object Object]"

/-- A JS object used as a string-keyed map. `none` on lookup plays the
role of `undefined`. -/
abbrev VMap := List (String × Value)

/-- Property read `m[k]`: first binding wins (assoc lists built by `aset`
never duplicate keys). -/
def aget (m : VMap) (k : String) : Option Value :=
  match m with
  | [] => none
  | (k', v) :: t => if k' = k then some v else aget t k

/-- Property write `m[k] = v` with JS object semantics: an existing key
keeps its position, a new key is appended. -/
def aset (m : VMap) (k : String) (v : Value) : VMap :=
  match m with
  | [] => [(k, v)]
  | (k', v') :: t => if k' = k then (k', v) :: t else (k', v') :: aset t k v

/-- Outcome of a `load` hook invocation: it can produce a value, produce
`undefined`, or throw. -/
inductive LoadResult where
  | ok (v : Option Value)
  | threw

/-- Outcome of a `validation.custom` invocation: `true`, a message
string, any other non-`true` value, or a thrown error (rendered as a
string by the `catch` block). -/
inductive CustomResult where
  | isTrue
  | msg (s : String)
  | other
  | threw (e : String)

/-- Validation rules of a field (`FieldValidation` in `NodeRegistry.ts`).
`required` is the JS truthiness of the attribute; numeric bounds are kept
as optional integers; `pattern` is embedded as the compiled regex test
(a falsy/absent pattern string is `none`). -/
structure FieldValidation where
  required : Bool := false
  min : Option Int := none
  max : Option Int := none
  minLength : Option Int := none
  maxLength : Option Int := none
  pattern : Option (String → Bool) := none
  custom : Option (Value → CustomResult) := none

/-- The closed set of field type tags. -/
inductive FieldType where
  | text | textarea | number | boolean | select | date | email | url
  | file | node | array | slug | blocks
deriving DecidableEq

/-- A field definition (`FieldDefinition` in `NodeRegistry.ts`), flattened:
each variant of the TS union only adds optional attributes, so one
structure with optional attributes is an exact embedding of the parts the
server reads.  Display-only attributes are omitted (never read by the
embedded operations).  `save` receives the owner instance snapshot and
the raw value and may return a replacement (`none` = returned
`undefined`); `load` receives the instance. -/
structure FieldDef where
  type : FieldType
  name : String
  validation : Option FieldValidation := none
  save : Option (VMap → Value → Option Value) := none
  load : Option (VMap → LoadResult) := none
  multiple : Bool := false
  minItems : Option Int := none
  maxItems : Option Int := none
  allowedBlocks : Option (List String) := none
  minBlocks : Option Int := none
  maxBlocks : Option Int := none

/-- `value === undefined || value === null || value === ''`. -/
def isEmptyValue : Option Value → Bool
  | none => true
  | some v =>
    match v with
    | .vNull => true
    | .vStr s => s == ""
    | _ => false

/-- Truthiness gate on an optional numeric validation attribute:
`validation?.attr && ...` runs the check only when the attribute is
present and nonzero. -/
def numAttrTruthy : Option Int → Bool
  | none => false
  | some n => !(n = 0)

/-- One element check of the multiple-node branch:
`!node || typeof node !== 'object' || !('id' in node) || !('nodeType' in node)`. -/
def badNodeRef (v : Value) : Bool :=
  !v.truthy || !v.isObjType || !v.hasKey "id" || !v.hasKey "nodeType"

/-- The `switch (fieldType)` body of `validateNodeData` for a present
value (the type-specific checks).  `select`, `date`, `file` and `blocks`
have no case and fall through with no checks. -/
def switchErrors (f : FieldDef) (v : Value) : List String :=
  let validation := f.validation.getD {}
  match f.type with
  | .text | .textarea | .email | .url | .slug =>
    match v with
    | .vStr s =>
      (if numAttrTruthy validation.minLength ∧
          (s.length : Int) < validation.minLength.getD 0 then
        ["Field \x27" ++ f.name ++ "\x27 must be at least " ++
          toString (validation.minLength.getD 0) ++ " characters long"]
      else []) ++
      (if numAttrTruthy validation.maxLength ∧
          (validation.maxLength.getD 0) < (s.length : Int) then
        ["Field \x27" ++ f.name ++ "\x27 must be no more than " ++
          toString (validation.maxLength.getD 0) ++ " characters long"]
      else []) ++
      (match validation.pattern with
       | some test => if test s then [] else
          ["Field \x27" ++ f.name ++ "\x27 does not match the required pattern"]
       | none => [])
    | _ => ["Field \x27" ++ f.name ++ "\x27 must be a string"]
  | .number =>
    match v with
    | .vNum n =>
      (if numAttrTruthy validation.min ∧ n < validation.min.getD 0 then
        ["Field \x27" ++ f.name ++ "\x27 must be at least " ++
          toString (validation.min.getD 0)]
      else []) ++
      (if numAttrTruthy validation.max ∧ validation.max.getD 0 < n then
        ["Field \x27" ++ f.name ++ "\x27 must be no more than " ++
          toString (validation.max.getD 0)]
      else [])
    | _ => ["Field \x27" ++ f.name ++ "\x27 must be a number"]
  | .boolean =>
    match v with
    | .vBool _ => []
    | _ => ["Field \x27" ++ f.name ++ "\x27 must be a boolean"]
  | .array =>
    match v with
    | .vArr elems =>
      (if numAttrTruthy f.minItems ∧
          (elems.length : Int) < f.minItems.getD 0 then
        ["Field \x27" ++ f.name ++ "\x27 must have at least " ++
          toString (f.minItems.getD 0) ++ " items"]
      else []) ++
      (if numAttrTruthy f.maxItems ∧
          (f.maxItems.getD 0) < (elems.length : Int) then
        ["Field \x27" ++ f.name ++ "\x27 must have no more than " ++
          toString (f.maxItems.getD 0) ++ " items"]
      else [])
    | _ => ["Field \x27" ++ f.name ++ "\x27 must be an array"]
  | .node =>
    if f.multiple then
      match v with
      | .vArr elems =>
        elems.enum.filterMap (fun p =>
          if badNodeRef p.2 then
            some ("Field \x27" ++ f.name ++
              "\x27 contains invalid node reference at position " ++
              toString (p.1 + 1) ++ " (must have id and nodeType)")
          else none)
      | _ => ["Field \x27" ++ f.name ++ "\x27 must be an array of nodes"]
    else
      if v.isObjType ∧ v.hasKey "id" ∧ v.hasKey "nodeType" then []
      else ["Field \x27" ++ f.name ++
        "\x27 must be a valid node reference (must have id and nodeType)"]
  | .select | .date | .file | .blocks => []

/-- The trailing `validation.custom` invocation of the per-field loop. -/
def customErrors (f : FieldDef) (v : Value) : List String :=
  match (f.validation.getD {}).custom with
  | none => []
  | some fn =>
    match fn v with
    | .isTrue => []
    | .msg s => [s]
    | .other => ["Field \x27" ++ f.name ++ "\x27 failed custom validation"]
    | .threw e =>
      ["Field \x27" ++ f.name ++ "\x27 custom validation error: " ++ e]

/-- One iteration of the `for (const field of fields)` loop of
`validateNodeData`: required check (with `continue`), skip of empty
optional values (with `continue`), then the type switch and the custom
validator. -/
def validateField (data : VMap) (f : FieldDef) : List String :=
  let value := aget data f.name
  if isEmptyValue value then
    if (f.validation.getD {}).required then
      ["Field \x27" ++ f.name ++ "\x27 is required"]
    else []
  else
    match value with
    | some v => switchErrors f v ++ customErrors f v
    | none => []

/-- `validateNodeData(data, fields)` from `NodeBuilderController.ts`:
the per-field error lists concatenated in field-list order.  The
controller treats the result as valid iff it is empty. -/
def validateNodeData (data : VMap) (fields : List FieldDef) : List String :=
  (fields.map (validateField data)).flatten

/-- `processNodeForSave(data, fields, instance)`: start from a copy of
the input map; for each field with a `save` hook and a defined input
value, run the hook (on the supplied instance, `{}` when absent) and, if
it returns a defined value, overwrite that field's entry.  A throwing
`save` hook is rethrown by the source, i.e. the catch block is the
identity on the propagated error, so the embedding keeps hooks total. -/
def saveStep (data inst acc : VMap) (f : FieldDef) : VMap :=
  match f.save, aget data f.name with
  | some fn, some v =>
    match fn inst v with
    | some out => aset acc f.name out
    | none => acc
  | _, _ => acc

/-- The loop of `processNodeForSave` folded over the field list,
starting from the copy of the input map. -/
def processNodeForSave (data : VMap) (fields : List FieldDef)
    (inst : VMap) : VMap :=
  fields.foldl (saveStep data inst) data

/-- `processNodeForDisplay(instance, fields)`: start from the instance's
plain serialized form; a field with a `load` hook gets its result when
the hook returns a defined value, keeps the raw value when the hook
returns `undefined` or throws (the catch only logs); a field with no
hook re-copies the instance's value when defined. -/
def displayStep (inst acc : VMap) (f : FieldDef) : VMap :=
  match f.load with
  | some fn =>
    match fn inst with
    | .ok (some v) => aset acc f.name v
    | .ok none => acc
    | .threw => acc
  | none =>
    match aget inst f.name with
    | some v => aset acc f.name v
    | none => acc

/-- The loop of `processNodeForDisplay` folded over the field list,
starting from the instance's serialized form. -/
def processNodeForDisplay (inst : VMap) (fields : List FieldDef) : VMap :=
  fields.foldl (displayStep inst) inst

/-- Node type settings (`NodeSettings` in `NodeRegistry.ts`); only
`subpath` is ever consulted by the embedded operations, the display
attributes are kept for shape. -/
structure NodeSettings where
  displayName : Option String := none
  icon : Option String := none
  description : Option String := none
  subpath : Option String := none

/-- A persisted row of some node type's model: numeric primary key plus
the column map (implicit timestamp columns are just entries of `data`
when needed). -/
structure NInstance where
  pk : Nat
  data : VMap

/-- A registry entry (`NodeTypeBase` in `NodeRegistry.ts`).  The
sequelize model handle is abstracted by what the embedded code observes
of it: its table (`instances`, rows in store order) and whether
`'authorId' in Model.rawAttributes` holds. -/
structure NodeTypeBase where
  type : String
  settings : Option NodeSettings := none
  fields : Option (List FieldDef) := none
  instances : List NInstance := []
  hasAuthorAttr : Bool := false

/-- The `NodeRegistry._types` map: a JS object keyed by type name, so an
association list with object insertion semantics. -/
abbrev Registry := List (String × NodeTypeBase)

/-- Generic JS-object write used by `register` (existing key keeps its
position and gets the new value; new key appended). -/
def regSet (reg : Registry) (k : String) (v : NodeTypeBase) : Registry :=
  match reg with
  | [] => [(k, v)]
  | (k', v') :: t => if k' = k then (k', v) :: t else (k', v') :: regSet t k v

/-- Generic JS-object read on the registry map. -/
def regGet (reg : Registry) (k : String) : Option NodeTypeBase :=
  match reg with
  | [] => none
  | (k', v) :: t => if k' = k then some v else regGet t k

namespace NodeRegistry

/-- `NodeRegistry.register(type, settings, fields)` applied to a model:
`_types[type] = { type, Model, settings, fields }`.  The whole stored
entry is the `NodeTypeBase` argument (whose `type` the caller sets to the
key, as the source constructor does). -/
def register (reg : Registry) (type : String) (entry : NodeTypeBase) :
    Registry :=
  regSet reg type entry

/-- `NodeRegistry.getTypeInfo(type)`. -/
def getTypeInfo (reg : Registry) (type : String) : Option NodeTypeBase :=
  regGet reg type

/-- `NodeRegistry.getModelByType(type)` — the model handle, i.e. the
entry's abstracted model part; absent exactly when the type is not in the
map (`_types[type]?.Model`). -/
def getModelByType (reg : Registry) (type : String) : Option NodeTypeBase :=
  regGet reg type

/-- `NodeRegistry.getFieldsByType(type)` (`_types[type]?.fields`). -/
def getFieldsByType (reg : Registry) (type : String) :
    Option (List FieldDef) :=
  (regGet reg type).bind (·.fields)

/-- `NodeRegistry.getAllTypeInfos()` — `Object.values(this._types)` in
insertion order. -/
def getAllTypeInfos (reg : Registry) : List NodeTypeBase :=
  reg.map Prod.snd

/-- `NodeRegistry.isTypeRegistered(type)` (`type in this._types`). -/
def isTypeRegistered (reg : Registry) (type : String) : Bool :=
  (regGet reg type).isSome

/-- `NodeRegistry.getSlugField(type)`:
`fields?.find(field => field.type === 'slug')`. -/
def getSlugField (reg : Registry) (type : String) : Option FieldDef :=
  (getFieldsByType reg type).bind
    (·.find? (fun f => f.type == FieldType.slug))

/-- `NodeRegistry.generateNodeUrl(nodeType, nodeInstance)`. -/
def generateNodeUrl (reg : Registry) (nodeType : String)
    (nodeInstance : NInstance) : Option String :=
  match getTypeInfo reg nodeType with
  | none => none
  | some typeInfo =>
    match getSlugField reg nodeType with
    | none => none
    | some slugField =>
      match aget nodeInstance.data slugField.name with
      | none => none
      | some v =>
        if v.truthy then
          match typeInfo.settings.bind (·.subpath) with
          | some sp =>
            if sp = "" then some ("/" ++ v.jsToString)
            else some ("/" ++ sp ++ "/" ++ v.jsToString)
          | none => some ("/" ++ v.jsToString)
        else none

end NodeRegistry

/-- `/^\d+$/.test(s)`: at least one character and all characters decimal
digits. -/
def isAllDigits (s : String) : Bool :=
  !s.data.isEmpty && s.data.all (fun c => 48 ≤ c.toNat && c.toNat ≤ 57)

/-- `parseInt` on an all-digit string. -/
def natOfDigits (s : String) : Nat :=
  s.data.foldl (fun acc c => acc * 10 + (c.toNat - 48)) 0

/-- `Model.findByPk` as invoked with a request-parameter string: a row is
found only for an all-digit identifier naming an existing primary key
(a non-numeric string coerces to no integer key and matches nothing). -/
def findByPkStr (rows : List NInstance) (id : String) : Option NInstance :=
  if isAllDigits id then rows.find? (fun r => r.pk == natOfDigits id)
  else none

/-- `Model.findOne({ where: { [slugField.name]: key } })`: first row in
store order whose slug column equals the string key. -/
def findBySlugColumn (rows : List NInstance) (col : String) (key : String) :
    Option NInstance :=
  rows.find? (fun r =>
    match aget r.data col with
    | some (.vStr s) => s == key
    | _ => false)

/-- `findNodeBySlug(nodeType, slug)` from `NodeController.ts`: numeric
primary-key lookup first when the key is all digits, then lookup by the
type's slug field when one is declared. -/
def findNodeBySlug (reg : Registry) (nodeType : String) (slug : String) :
    Option NInstance :=
  match NodeRegistry.getModelByType reg nodeType with
  | none => none
  | some model =>
    match (if isAllDigits slug then findByPkStr model.instances slug
           else none) with
    | some nodeById => some nodeById
    | none =>
      match NodeRegistry.getSlugField reg nodeType with
      | some slugField => findBySlugColumn model.instances slugField.name slug
      | none => none

/-- `String.intercalate "/"`, i.e. `segments.join('/')`. -/
def joinSlash : List String → String
  | [] => ""
  | [s] => s
  | s :: rest => s ++ "/" ++ joinSlash rest

/-- The truthy subpath of a registry entry
(`nodeTypeInfo.settings?.subpath` guarded by `if (subpath)`): an absent
or empty subpath string falls to the no-subpath branch. -/
def declSubpath (ti : NodeTypeBase) : Option String :=
  match ti.settings.bind (·.subpath) with
  | some sp => if sp = "" then none else some sp
  | none => none

/-- Result of `resolveNodeByPath`: the thrown
`WebError("Invalid path", 404)`, the thrown `WebError("Node not found",
404)`, or the `{ node, nodeType }` payload. -/
inductive ResolveResult where
  | invalidPath
  | notFound
  | found (node : NInstance) (nodeType : String)

/-- The `for (const nodeTypeInfo of registeredTypes)` loop of
`resolveNodeByPath`. -/
def resolveLoop (reg : Registry) (pathSegments : List String) :
    List NodeTypeBase → ResolveResult
  | [] => .notFound
  | nodeTypeInfo :: rest =>
    match declSubpath nodeTypeInfo with
    | some subpath =>
      if 2 ≤ pathSegments.length ∧
          joinSlash pathSegments.dropLast = subpath then
        match findNodeBySlug reg nodeTypeInfo.type
            (pathSegments.getLast?.getD "") with
        | some foundNode => .found foundNode nodeTypeInfo.type
        | none => resolveLoop reg pathSegments rest
      else resolveLoop reg pathSegments rest
    | none =>
      match findNodeBySlug reg nodeTypeInfo.type (joinSlash pathSegments) with
      | some foundNode => .found foundNode nodeTypeInfo.type
      | none => resolveLoop reg pathSegments rest

/-- `NodeController.resolveNodeByPath(pathSegments)` (already-split
segment list input). -/
def resolveNodeByPath (reg : Registry) (pathSegments : List String) :
    ResolveResult :=
  if pathSegments.length < 1 then .invalidPath
  else resolveLoop reg pathSegments (NodeRegistry.getAllTypeInfos reg)

/-- Response shape shared by the two get-by-id handlers. -/
inductive GetResp (α : Type) where
  | notFoundType
  | notFoundNode
  | ok (data : α)

/-- `GET /node-builder/types/:type/nodes/:id` (admin CRUD engine): type
registered, `findByPk` only — no slug fallback — then the display
transform over the type's fields. -/
def nodeBuilderGetNode (reg : Registry) (type id : String) : GetResp VMap :=
  if !(NodeRegistry.isTypeRegistered reg type) then .notFoundType
  else
    match NodeRegistry.getModelByType reg type with
    | none => .notFoundType
    | some model =>
      match findByPkStr model.instances id with
      | none => .notFoundNode
      | some node =>
        .ok (processNodeForDisplay node.data
          (((NodeRegistry.getTypeInfo reg type).bind (·.fields)).getD []))

/-- `GET /nodes/:nodeType/:id` (public controller): `findByPk` first,
then — whenever the type declares a slug field — a slug-column lookup
with the same identifier; the raw instance is returned. -/
def nodeControllerGetNode (reg : Registry) (nodeType id : String) :
    GetResp NInstance :=
  match NodeRegistry.getModelByType reg nodeType with
  | none => .notFoundType
  | some model =>
    match findByPkStr model.instances id with
    | some nodeInstance => .ok nodeInstance
    | none =>
      match NodeRegistry.getSlugField reg nodeType with
      | some slugField =>
        match findBySlugColumn model.instances slugField.name id with
        | some nodeInstance => .ok nodeInstance
        | none => .notFoundNode
      | none => .notFoundNode

/-- Response of the create handler: 404 (type), 400 with itemized
errors, or 201 whose `data` is the instance returned by
`Model.create(processedData)`. -/
inductive CreateResp where
  | notFoundType
  | invalid (errors : List String)
  | created (node : NInstance)

/-- `POST /node-builder/types/:type/nodes` (admin caller already
authenticated): validate, `processNodeForSave`, stamp `authorId` when the
model declares that attribute, persist (`Model.create` hands the new row
its primary key), respond 201 with the created row as-is. -/
def createNode (reg : Registry) (type : String) (userId : Nat)
    (nodeData : VMap) (newPk : Nat) : CreateResp :=
  if !(NodeRegistry.isTypeRegistered reg type) then .notFoundType
  else
    match NodeRegistry.getModelByType reg type with
    | none => .notFoundType
    | some model =>
      let fields := ((NodeRegistry.getTypeInfo reg type).bind (·.fields)).getD []
      let errors := validateNodeData nodeData fields
      if errors.isEmpty then
        let processedData := processNodeForSave nodeData fields []
        let stamped :=
          if model.hasAuthorAttr then
            aset processedData "authorId" (.vNum userId)
          else processedData
        .created ⟨newPk, stamped⟩
      else .invalid errors

/-- Claim-side definition (C1 wording): the lookup key a path yields for
one registered type — a type with a declared subpath matches only if the
sequence has at least two segments and all but the last segment joined
with `/` equal the subpath exactly, the last segment being the key; a
type with no subpath uses the entire joined path as the key. -/
def claimLookupKey (ti : NodeTypeBase) (segs : List String) : Option String :=
  match declSubpath ti with
  | some sp =>
    if 2 ≤ segs.length ∧ joinSlash segs.dropLast = sp then
      some (segs.getLast?.getD "")
    else none
  | none => some (joinSlash segs)

/-- Claim-side definition (C1 wording): key lookup on one type — numeric
primary key first when the key consists only of digits, then the type's
slug field. -/
def claimFindByKey (ti : NodeTypeBase) (key : String) : Option NInstance :=
  match (if isAllDigits key then
          ti.instances.find? (fun r => r.pk == natOfDigits key)
         else none) with
  | some byId => some byId
  | none =>
    match ti.fields with
    | some fs =>
      match fs.find? (fun fd => fd.type == FieldType.slug) with
      | some sf => findBySlugColumn ti.instances sf.name key
      | none => none
    | none => none

/-- Claim-side definition (C1 wording): iterate the registered node types
in registration order and return the first (instance, type name) pair
that matches; empty input is invalid; no match is not-found. -/
def claimResolve (reg : Registry) (segs : List String) : ResolveResult :=
  if segs.isEmpty then .invalidPath
  else
    match (NodeRegistry.getAllTypeInfos reg).findSome? (fun ti =>
        ((claimLookupKey ti segs).bind (claimFindByKey ti)).map
          (fun n => (n, ti.type))) with
    | some p => .found p.1 p.2
    | none => .notFound

/-- A registry map is well formed when every stored entry carries the key
it is stored under as its `type` (which `NodeRegistry.register` enforces)
and keys are not duplicated (which object-map insertion enforces). -/
def RegistryWF (reg : Registry) : Prop :=
  (∀ p ∈ reg, p.1 = p.2.type) ∧ (reg.map Prod.fst).Nodup

/-- Fixture: a plain slug field. -/
def slugFieldFix : FieldDef := { type := .slug, name := "slug" }

/-- Fixture row: the `page` instance with slug `home`. -/
def homeRow : NInstance := ⟨1, [("slug", Value.vStr "home")]⟩

/-- Fixture row: the `article` instance with slug `hello-world`. -/
def helloRow : NInstance := ⟨2, [("slug", Value.vStr "hello-world")]⟩

/-- Fixture row: a `page` instance with slug `about`. -/
def aboutRow : NInstance := ⟨1, [("slug", Value.vStr "about")]⟩

/-- Fixture entry: the `page` type, no subpath, holding `homeRow`. -/
def pageEntry : NodeTypeBase :=
  { type := "page", fields := some [slugFieldFix], instances := [homeRow] }

/-- Fixture entry: the `article` type with subpath `blog`, holding
`helloRow`. -/
def articleEntry : NodeTypeBase :=
  { type := "article", settings := some { subpath := some "blog" },
    fields := some [slugFieldFix], instances := [helloRow] }

/-- Fixture registry: `page` (no subpath) and `article` (subpath
`blog`), each with a slug field and one instance. -/
def regFix : Registry := [("page", pageEntry), ("article", articleEntry)]

/-- Fixture entry: a `page` type holding only `aboutRow`. -/
def pageAboutEntry : NodeTypeBase :=
  { type := "page", fields := some [slugFieldFix], instances := [aboutRow] }

/-- Fixture registry for the get-by-id claims: one type whose single
instance is reachable by slug but whose primary key is 1. -/
def regAbout : Registry := [("page", pageAboutEntry)]

/-- Fixture: a text field whose `load` hook replaces the stored value on
display. -/
def titleLoadedField : FieldDef :=
  { type := .text, name := "title",
    load := some (fun _ => .ok (some (.vStr "LOADED"))) }

/-- Fixture entry: a `post` type with the load-hooked title field and
no rows yet. -/
def postEntry : NodeTypeBase :=
  { type := "post", fields := some [titleLoadedField] }

/-- Fixture registry for the create claim. -/
def regPost : Registry := [("post", postEntry)]

/-- Fixture: a number field declaring `validation.min = 0`. -/
def minZeroField : FieldDef :=
  { type := .number, name := "n", validation := some { min := some 0 } }

/-- Fixture registry entries for the duplicate-registration claim. -/
def entryAFix : NodeTypeBase := { type := "page" }

/-- Second fixture entry registered under the same name. -/
def entryBFix : NodeTypeBase :=
  { type := "page", settings := some { subpath := some "p" } }

/-- Fixture: a plain text field with no validation and no hooks. -/
def plainTextField : FieldDef := { type := .text, name := "title" }

/-- Fixture: a text field whose `load` hook always throws. -/
def throwingLoadField : FieldDef :=
  { type := .text, name := "bad", load := some (fun _ => .threw) }
/-- Fixture: a number field with nonzero min and max bounds. -/
def minMaxField : FieldDef :=
  { type := .number, name := "n",
    validation := some { min := some 5, max := some 10 } }
/-- Fixture entry: a type whose model declares an `authorId` attribute. -/
def authoredEntry : NodeTypeBase :=
  { type := "story", fields := some [plainTextField], hasAuthorAttr := true }

/-- Fixture registry for the author-stamping case of the create claim. -/
def regStory : Registry := [("story", authoredEntry)]
theorem aget_aset_self (m : VMap) (k : String) (v : Value) :
    aget (aset m k v) k = some v := by
  induction m with
  | nil => simp [aset, aget]
  | cons hd t ih =>
    obtain ⟨k', v'⟩ := hd
    by_cases hk : k' = k
    · simp [aset, aget, hk]
    · simp [aset, aget, hk, ih]

theorem aget_aset_ne (m : VMap) (k k' : String) (v : Value) (h : k' ≠ k) :
    aget (aset m k v) k' = aget m k' := by
  have h' : ¬(k = k') := fun hh => h hh.symm
  induction m with
  | nil => simp [aset, aget, h']
  | cons hd t ih =>
    obtain ⟨k0, v0⟩ := hd
    by_cases hk : k0 = k
    · subst hk
      simp [aset, aget, h']
    · by_cases hk' : k0 = k'
      · simp [aset, aget, hk, hk', h]
      · simp [aset, aget, hk, hk', ih]

theorem aset_self (m : VMap) (k : String) (v : Value)
    (h : aget m k = some v) : aset m k v = m := by
  induction m with
  | nil => simp [aget] at h
  | cons hd t ih =>
    obtain ⟨k0, v0⟩ := hd
    by_cases hk : k0 = k
    · simp [aget, hk] at h
      simp [aset, hk, h]
    · simp [aget, hk] at h
      simp [aset, hk, ih h]

theorem regGet_regSet_self (reg : Registry) (k : String) (v : NodeTypeBase) :
    regGet (regSet reg k v) k = some v := by
  induction reg with
  | nil => simp [regSet, regGet]
  | cons hd t ih =>
    obtain ⟨k', v'⟩ := hd
    by_cases hk : k' = k
    · simp [regSet, regGet, hk]
    · simp [regSet, regGet, hk, ih]

theorem regGet_none_of_not_mem (reg : Registry) (k : String)
    (h : k ∉ reg.map Prod.fst) : regGet reg k = none := by
  induction reg with
  | nil => rfl
  | cons hd t ih =>
    obtain ⟨k0, v0⟩ := hd
    simp only [List.map_cons, List.mem_cons] at h
    push_neg at h
    simp [regGet, Ne.symm h.1, ih h.2]

theorem regGet_of_nodup (reg : Registry)
    (hnd : (reg.map Prod.fst).Nodup) (p : String × NodeTypeBase)
    (hp : p ∈ reg) : regGet reg p.1 = some p.2 := by
  induction reg with
  | nil => simp at hp
  | cons hd t ih =>
    simp only [List.map_cons, List.nodup_cons] at hnd
    rcases List.mem_cons.mp hp with rfl | hmem
    · simp [regGet]
    · have hne : hd.1 ≠ p.1 := by
        intro he
        exact hnd.1 (he ▸ List.mem_map_of_mem Prod.fst hmem)
      simpa [regGet, hne] using ih hnd.2 hmem

theorem processNodeForSave_no_hooks (data inst : VMap)
    (fields : List FieldDef) (h : ∀ f ∈ fields, f.save = none) :
    processNodeForSave data fields inst = data := by
  induction fields with
  | nil => rfl
  | cons f t ih =>
    have hf : f.save = none := h f (List.mem_cons_self f t)
    have hstep : saveStep data inst data f = data := by
      simp [saveStep, hf]
    have ht : ∀ g ∈ t, g.save = none :=
      fun g hg => h g (List.mem_cons_of_mem f hg)
    calc processNodeForSave data (f :: t) inst
        = t.foldl (saveStep data inst) (saveStep data inst data f) := rfl
      _ = t.foldl (saveStep data inst) data := by rw [hstep]
      _ = data := ih ht

theorem displayStep_id_of_no_load (inst : VMap) (f : FieldDef)
    (hf : f.load = none) : displayStep inst inst f = inst := by
  unfold displayStep
  rw [hf]
  cases hv : aget inst f.name with
  | none => rfl
  | some v => simpa using aset_self inst f.name v hv

theorem processNodeForDisplay_no_hooks (inst : VMap)
    (fields : List FieldDef) (h : ∀ f ∈ fields, f.load = none) :
    processNodeForDisplay inst fields = inst := by
  induction fields with
  | nil => rfl
  | cons f t ih =>
    have hf : f.load = none := h f (List.mem_cons_self f t)
    have ht : ∀ g ∈ t, g.load = none :=
      fun g hg => h g (List.mem_cons_of_mem f hg)
    calc processNodeForDisplay inst (f :: t)
        = t.foldl (displayStep inst) (displayStep inst inst f) := rfl
      _ = t.foldl (displayStep inst) inst := by
          rw [displayStep_id_of_no_load inst f hf]
      _ = inst := ih ht

theorem aget_saveStep_ne (data inst acc : VMap) (f : FieldDef) (k : String)
    (hk : k ≠ f.name) : aget (saveStep data inst acc f) k = aget acc k := by
  cases hs : f.save with
  | none => simp [saveStep, hs]
  | some fn =>
    cases hv : aget data f.name with
    | none => simp [saveStep, hs, hv]
    | some v =>
      cases ho : fn inst v with
      | none => simp [saveStep, hs, hv, ho]
      | some out => simp [saveStep, hs, hv, ho, aget_aset_ne _ _ _ _ hk]

theorem aget_displayStep_ne (inst acc : VMap) (f : FieldDef) (k : String)
    (hk : k ≠ f.name) : aget (displayStep inst acc f) k = aget acc k := by
  cases hl : f.load with
  | none =>
    cases hv : aget inst f.name with
    | none => simp [displayStep, hl, hv]
    | some v => simp [displayStep, hl, hv, aget_aset_ne _ _ _ _ hk]
  | some fn =>
    cases hr : fn inst with
    | threw => simp [displayStep, hl, hr]
    | ok o =>
      cases o with
      | none => simp [displayStep, hl, hr]
      | some v => simp [displayStep, hl, hr, aget_aset_ne _ _ _ _ hk]

theorem aget_save_foldl_not_mem (data inst : VMap) (k : String) :
    ∀ (fields : List FieldDef) (acc : VMap), k ∉ fields.map FieldDef.name →
      aget (fields.foldl (saveStep data inst) acc) k = aget acc k := by
  intro fields
  induction fields with
  | nil => intro acc _; rfl
  | cons f t ih =>
    intro acc hk
    simp only [List.map_cons, List.mem_cons] at hk
    push_neg at hk
    calc aget (t.foldl (saveStep data inst) (saveStep data inst acc f)) k
        = aget (saveStep data inst acc f) k := ih _ hk.2
      _ = aget acc k := aget_saveStep_ne data inst acc f k hk.1

theorem aget_display_foldl_not_mem (inst : VMap) (k : String) :
    ∀ (fields : List FieldDef) (acc : VMap), k ∉ fields.map FieldDef.name →
      aget (fields.foldl (displayStep inst) acc) k = aget acc k := by
  intro fields
  induction fields with
  | nil => intro acc _; rfl
  | cons f t ih =>
    intro acc hk
    simp only [List.map_cons, List.mem_cons] at hk
    push_neg at hk
    calc aget (t.foldl (displayStep inst) (displayStep inst acc f)) k
        = aget (displayStep inst acc f) k := ih _ hk.2
      _ = aget acc k := aget_displayStep_ne inst acc f k hk.1

theorem validateField_congr (data data' : VMap) (f : FieldDef)
    (h : aget data f.name = aget data' f.name) :
    validateField data f = validateField data' f := by
  unfold validateField
  rw [h]

theorem isEmptyValue_false_of_present (v : Value) (hnn : v ≠ .vNull)
    (hns : v ≠ .vStr "") : isEmptyValue (some v) = false := by
  cases v with
  | vNull => exact absurd rfl hnn
  | vStr s =>
    have : s ≠ "" := fun h => hns (by rw [h])
    simp [isEmptyValue, this]
  | vNum n => rfl
  | vBool b => rfl
  | vArr l => rfl
  | vObj ks => rfl

theorem mem_validateNodeData (data : VMap) (fields : List FieldDef)
    (f : FieldDef) (hf : f ∈ fields) (e : String)
    (he : e ∈ validateField data f) : e ∈ validateNodeData data fields := by
  unfold validateNodeData
  exact List.mem_flatten.mpr ⟨validateField data f,
    List.mem_map_of_mem (validateField data) hf, he⟩

theorem validateField_present (data : VMap) (f : FieldDef) (v : Value)
    (hv : aget data f.name = some v) (hnn : v ≠ .vNull)
    (hns : v ≠ .vStr "") :
    validateField data f = switchErrors f v ++ customErrors f v := by
  unfold validateField
  rw [hv]
  simp only [isEmptyValue_false_of_present v hnn hns, Bool.false_eq_true,
    if_false]

/-- C8: registering two schemas in sequence under the same name raises
no error (`register` is a total function over the registry map) and a
subsequent lookup of that name returns the second schema only (last
writer wins); lookups of unknown names return the absent sentinel
(`none`) and never throw (all registry reads are total). -/
theorem claim_C8_registry_last_write_wins (reg : Registry) (name : String)
    (s1 s2 : NodeTypeBase) :
    NodeRegistry.getTypeInfo
        (NodeRegistry.register (NodeRegistry.register reg name s1) name s2)
        name = some s2
    ∧ (∀ unknown : String, unknown ∉ reg.map Prod.fst →
        NodeRegistry.getTypeInfo reg unknown = none) := by
  refine ⟨regGet_regSet_self _ _ _, ?_⟩
  intro unknown h
  exact regGet_none_of_not_mem reg unknown h

/-- Witness for C8 at a concrete registry: the duplicate name resolves
to the second entry and a missing name resolves to `none`. -/
theorem claim_C8_witness :
    NodeRegistry.getTypeInfo
        (NodeRegistry.register (NodeRegistry.register [] "page" entryAFix)
          "page" entryBFix) "page" = some entryBFix
    ∧ NodeRegistry.getTypeInfo ([("page", entryAFix)] : Registry)
        "missing" = none :=
  ⟨(claim_C8_registry_last_write_wins [] "page" entryAFix entryBFix).1,
   (claim_C8_registry_last_write_wins [("page", entryAFix)] "page"
      entryAFix entryBFix).2 "missing" (by simp)⟩

/-- C2 counterexample: a number field declaring `validation.min = 0`
with input value `-1` (a number strictly below the declared minimum)
produces no violations, because the `validation?.min && ...` truthiness
guard in `validateNodeData` skips the bound check when the declared
minimum is `0`.  This refutes the claim as universally stated. -/
theorem claim_C2_counterexample :
    validateNodeData [("n", Value.vNum (-1))] [minZeroField] = [] := rfl

/-- C2 amended: for a number field declaring a *nonzero*
`validation.min` (respectively *nonzero* `validation.max`), a numeric
value strictly below the minimum (respectively strictly above the
maximum) yields the corresponding violation for that field in the
validation output. -/
theorem claim_C2_amended_min_max_enforced (fields : List FieldDef)
    (data : VMap) (f : FieldDef) (hf : f ∈ fields)
    (hty : f.type = .number) (vv : FieldValidation)
    (hv : f.validation = some vv) (n : Int)
    (hval : aget data f.name = some (.vNum n)) :
    (∀ m, vv.min = some m → m ≠ 0 → n < m →
      ("Field \x27" ++ f.name ++ "\x27 must be at least " ++ toString m)
        ∈ validateNodeData data fields)
    ∧ (∀ m, vv.max = some m → m ≠ 0 → m < n →
      ("Field \x27" ++ f.name ++ "\x27 must be no more than " ++
        toString m) ∈ validateNodeData data fields) := by
  have hpres := validateField_present data f (.vNum n) hval
    (by intro h; cases h) (by intro h; cases h)
  constructor
  · intro m hm hm0 hlt
    apply mem_validateNodeData data fields f hf
    rw [hpres]
    apply List.mem_append_left
    simp [switchErrors, hty, hv, hm, numAttrTruthy, hm0, hlt]
  · intro m hm hm0 hlt
    apply mem_validateNodeData data fields f hf
    rw [hpres]
    apply List.mem_append_left
    simp [switchErrors, hty, hv, hm, numAttrTruthy, hm0, hlt]

/-- Witness for the amended C2 at concrete inputs: a field with
`min = 5`, `max = 10` and the values `3` and `12`. -/
theorem claim_C2_amended_witness :
    ("Field \x27n\x27 must be at least 5")
      ∈ validateNodeData [("n", Value.vNum 3)] [minMaxField]
    ∧ ("Field \x27n\x27 must be no more than 10")
      ∈ validateNodeData [("n", Value.vNum 12)] [minMaxField] :=
  ⟨(claim_C2_amended_min_max_enforced [minMaxField] [("n", Value.vNum 3)]
      minMaxField (List.mem_singleton.mpr rfl) rfl
      { min := some 5, max := some 10 } rfl 3 rfl).1 5 rfl
      (by decide) (by decide),
   (claim_C2_amended_min_max_enforced [minMaxField] [("n", Value.vNum 12)]
      minMaxField (List.mem_singleton.mpr rfl) rfl
      { min := some 5, max := some 10 } rfl 12 rfl).2 10 rfl
      (by decide) (by decide)⟩

/-- C10: for a field of type `select`, `date`, `file` or `blocks` and a
present (non-null, non-empty-string) value, validation performs no
type-specific check: the entire per-field output is exactly whatever the
custom validator contributes (empty when no custom validator is
declared).  In particular the `allowedBlocks` / `minBlocks` /
`maxBlocks` attributes of a blocks field — quantified arbitrarily here —
are never consulted by server-side validation. -/
theorem claim_C10_no_type_specific_checks (data : VMap) (f : FieldDef)
    (hty : f.type = .select ∨ f.type = .date ∨ f.type = .file ∨
      f.type = .blocks)
    (v : Value) (hv : aget data f.name = some v)
    (hnn : v ≠ .vNull) (hns : v ≠ .vStr "") :
    validateNodeData data [f] = customErrors f v := by
  have hsw : switchErrors f v = [] := by
    rcases hty with h | h | h | h <;> simp [switchErrors, h]
  have : validateNodeData data [f] = validateField data f := by
    simp [validateNodeData]
  rw [this, validateField_present data f v hv hnn hns, hsw,
    List.nil_append]

/-- Witness for C10: a blocks field declaring `minBlocks = 5`,
`maxBlocks = 1` and a restrictive allow-list accepts an empty block
array (and any other present value) with no violations. -/
theorem claim_C10_witness :
    validateNodeData [("body", Value.vArr [])]
        [{ type := .blocks, name := "body",
           allowedBlocks := some ["text_block"], minBlocks := some 5,
           maxBlocks := some 1 }]
      = customErrors
          { type := .blocks, name := "body",
            allowedBlocks := some ["text_block"], minBlocks := some 5,
            maxBlocks := some 1 } (Value.vArr []) :=
  claim_C10_no_type_specific_checks [("body", Value.vArr [])] _
    (Or.inr (Or.inr (Or.inr rfl))) (Value.vArr []) rfl
    (by intro h; cases h) (by intro h; cases h)

/-- C3: when no field in the list declares a save hook or a load hook,
running the to-storage transform and then the to-display transform on
any value map returns a map equal to the input map (every field passes
through both stages unchanged). -/
theorem claim_C3_storage_display_roundtrip (fields : List FieldDef)
    (data inst : VMap) (hs : ∀ f ∈ fields, f.save = none)
    (hl : ∀ f ∈ fields, f.load = none) :
    processNodeForDisplay (processNodeForSave data fields inst) fields
      = data := by
  rw [processNodeForSave_no_hooks data inst fields hs]
  exact processNodeForDisplay_no_hooks data fields hl

/-- Witness for C3 at a concrete hook-free field list and value map. -/
theorem claim_C3_witness :
    processNodeForDisplay
        (processNodeForSave [("title", Value.vStr "hi")] [plainTextField] [])
        [plainTextField] = [("title", Value.vStr "hi")] :=
  claim_C3_storage_display_roundtrip [plainTextField]
    [("title", Value.vStr "hi")] []
    (by intro f hf; rcases List.mem_singleton.mp hf with rfl; rfl)
    (by intro f hf; rcases List.mem_singleton.mp hf with rfl; rfl)

/-- C9: a key of the input map that is not the name of any declared
field is never validated — the validation output depends only on the
values at declared field names — and passes through the to-storage
transform verbatim, so undeclared request-body keys flow unchanged into
the persistence write. -/
theorem claim_C9_undeclared_keys_flow (fields : List FieldDef)
    (data data' inst : VMap) (k : String) :
    (k ∉ fields.map FieldDef.name →
      aget (processNodeForSave data fields inst) k = aget data k)
    ∧ ((∀ f ∈ fields, aget data f.name = aget data' f.name) →
      validateNodeData data fields = validateNodeData data' fields) := by
  constructor
  · intro hk
    exact aget_save_foldl_not_mem data inst k fields data hk
  · intro hagree
    unfold validateNodeData
    congr 1
    exact List.map_congr_left (fun f hf =>
      validateField_congr data data' f (hagree f hf))

/-- Witness for C9: an `extra` key unknown to the single declared field
survives the save transform unchanged, and stripping it does not change
the validation output. -/
theorem claim_C9_witness :
    aget (processNodeForSave
        [("title", Value.vStr "a"), ("extra", Value.vObj ["x"])]
        [plainTextField] []) "extra"
      = aget [("title", Value.vStr "a"), ("extra", Value.vObj ["x"])] "extra"
    ∧ validateNodeData
        [("title", Value.vStr "a"), ("extra", Value.vObj ["x"])]
        [plainTextField]
      = validateNodeData [("title", Value.vStr "a")] [plainTextField] :=
  ⟨(claim_C9_undeclared_keys_flow [plainTextField]
      [("title", Value.vStr "a"), ("extra", Value.vObj ["x"])]
      [("title", Value.vStr "a")] [] "extra").1 (by simp [plainTextField]),
   (claim_C9_undeclared_keys_flow [plainTextField]
      [("title", Value.vStr "a"), ("extra", Value.vObj ["x"])]
      [("title", Value.vStr "a")] [] "extra").2
      (by intro f hf; rcases List.mem_singleton.mp hf with rfl; rfl)⟩

/-- C7: when one field's load hook throws during the to-display
transform, the error does not propagate: the transform's result is the
same map the transform produces with that field absent (every other
field processed normally), and — when no other field shares its name —
the thrown field's entry keeps the raw stored value.  The transform is a
total function, so the operation never fails. -/
theorem claim_C7_load_throw_isolated (pre post : List FieldDef)
    (f : FieldDef) (inst : VMap) (fn : VMap → LoadResult)
    (hl : f.load = some fn) (ht : fn inst = .threw) :
    processNodeForDisplay inst (pre ++ f :: post)
      = processNodeForDisplay inst (pre ++ post)
    ∧ (f.name ∉ (pre ++ post).map FieldDef.name →
        aget (processNodeForDisplay inst (pre ++ f :: post)) f.name
          = aget inst f.name) := by
  have hstep : ∀ acc, displayStep inst acc f = acc := by
    intro acc
    simp [displayStep, hl, ht]
  have hmain : processNodeForDisplay inst (pre ++ f :: post)
      = processNodeForDisplay inst (pre ++ post) := by
    unfold processNodeForDisplay
    rw [List.foldl_append, List.foldl_append, List.foldl_cons, hstep]
  refine ⟨hmain, ?_⟩
  intro hmem
  rw [hmain]
  exact aget_display_foldl_not_mem inst f.name (pre ++ post) inst hmem

/-- Witness for C7: a concrete instance whose `bad` field's load hook
throws keeps its raw stored value while the hook-free `title` field is
still present. -/
theorem claim_C7_witness :
    processNodeForDisplay [("bad", Value.vStr "raw"), ("title", Value.vStr "t")]
        ([] ++ throwingLoadField :: [plainTextField])
      = processNodeForDisplay
          [("bad", Value.vStr "raw"), ("title", Value.vStr "t")]
          ([] ++ [plainTextField])
    ∧ aget (processNodeForDisplay
          [("bad", Value.vStr "raw"), ("title", Value.vStr "t")]
          ([] ++ throwingLoadField :: [plainTextField])) "bad"
      = aget [("bad", Value.vStr "raw"), ("title", Value.vStr "t")] "bad" :=
  ⟨(claim_C7_load_throw_isolated [] [plainTextField] throwingLoadField
      [("bad", Value.vStr "raw"), ("title", Value.vStr "t")]
      (fun _ => .threw) rfl rfl).1,
   (claim_C7_load_throw_isolated [] [plainTextField] throwingLoadField
      [("bad", Value.vStr "raw"), ("title", Value.vStr "t")]
      (fun _ => .threw) rfl rfl).2
      (by simp [plainTextField, throwingLoadField])⟩

theorem declSubpath_some (ti : NodeTypeBase) (sp : String)
    (h : declSubpath ti = some sp) :
    ti.settings.bind (·.subpath) = some sp ∧ sp ≠ "" := by
  unfold declSubpath at h
  cases hb : ti.settings.bind (·.subpath) with
  | none => rw [hb] at h; cases h
  | some sp' =>
    rw [hb] at h
    by_cases he : sp' = ""
    · simp [he] at h
    · simp [he] at h
      subst h
      exact ⟨rfl, he⟩

theorem declSubpath_none (ti : NodeTypeBase) (h : declSubpath ti = none) :
    ti.settings.bind (·.subpath) = none ∨
      ti.settings.bind (·.subpath) = some "" := by
  unfold declSubpath at h
  cases hb : ti.settings.bind (·.subpath) with
  | none => exact Or.inl rfl
  | some sp' =>
    rw [hb] at h
    by_cases he : sp' = ""
    · subst he
      exact Or.inr rfl
    · simp [he] at h

/-- C4: URL generation for a registered type returns absent when the
type declares no slug field or the instance's slug value is absent or
empty; when the slug value `s` is present and non-empty it returns
`/{subpath}/{s}` when the type declares a subpath and `/{s}` when it
does not.  "Declares a subpath" follows the source's truthiness test
(`if (subpath)`): an absent or empty-string subpath is undeclared,
captured by `declSubpath`. -/
theorem claim_C4_generateNodeUrl (reg : Registry) (t : String)
    (ti : NodeTypeBase) (hreg : NodeRegistry.getTypeInfo reg t = some ti)
    (inst : NInstance) :
    (NodeRegistry.getSlugField reg t = none →
      NodeRegistry.generateNodeUrl reg t inst = none)
    ∧ (∀ sf, NodeRegistry.getSlugField reg t = some sf →
        (aget inst.data sf.name = none ∨
         aget inst.data sf.name = some (.vStr "")) →
        NodeRegistry.generateNodeUrl reg t inst = none)
    ∧ (∀ sf s, NodeRegistry.getSlugField reg t = some sf →
        aget inst.data sf.name = some (.vStr s) → s ≠ "" →
        ((∀ sp, declSubpath ti = some sp →
            NodeRegistry.generateNodeUrl reg t inst
              = some ("/" ++ sp ++ "/" ++ s))
         ∧ (declSubpath ti = none →
            NodeRegistry.generateNodeUrl reg t inst = some ("/" ++ s)))) := by
  refine ⟨?_, ?_, ?_⟩
  · intro h
    simp [NodeRegistry.generateNodeUrl, hreg, h]
  · intro sf hsf hcase
    rcases hcase with h | h
    · simp [NodeRegistry.generateNodeUrl, hreg, hsf, h]
    · simp [NodeRegistry.generateNodeUrl, hreg, hsf, h, Value.truthy]
  · intro sf s hsf hval hs
    constructor
    · intro sp hsp
      obtain ⟨hb, hne⟩ := declSubpath_some ti sp hsp
      simp [NodeRegistry.generateNodeUrl, hreg, hsf, hval, Value.truthy,
        hs, hb, hne, Value.jsToString]
    · intro hnone
      rcases declSubpath_none ti hnone with hb | hb
      · simp [NodeRegistry.generateNodeUrl, hreg, hsf, hval, Value.truthy,
          hs, hb, Value.jsToString]
      · simp [NodeRegistry.generateNodeUrl, hreg, hsf, hval, Value.truthy,
          hs, hb, Value.jsToString]

/-- Witness for C4: on the fixture registry, the `article` instance with
slug `hello-world` under subpath `blog` yields `/blog/hello-world`, and
the subpath-less `page` instance with slug `home` yields `/home`. -/
theorem claim_C4_witness :
    NodeRegistry.generateNodeUrl regFix "article" helloRow
      = some "/blog/hello-world"
    ∧ NodeRegistry.generateNodeUrl regFix "page" homeRow = some "/home" := by
  constructor
  · have h := ((claim_C4_generateNodeUrl regFix "article" articleEntry rfl
      helloRow).2.2 slugFieldFix "hello-world" rfl rfl
      (by decide)).1 "blog" rfl
    simpa using h
  · have h := ((claim_C4_generateNodeUrl regFix "page" pageEntry rfl
      homeRow).2.2 slugFieldFix "home" rfl rfl (by decide)).2 rfl
    simpa using h

/-- C6 counterexample: the create handler responds 201 with the
persisted row as-is, not with the display form: for a type whose
`title` field has a load hook rewriting the value to `LOADED`, creating
`{title: "raw"}` returns a payload still holding `raw` (first
conjunct), while the display form of that row — what the claim says is
returned — holds `LOADED` (second conjunct).  `processNodeForDisplay`
is never invoked by the create handler. -/
theorem claim_C6_counterexample :
    createNode regPost "post" 7 [("title", Value.vStr "raw")] 1
      = .created ⟨1, [("title", Value.vStr "raw")]⟩
    ∧ processNodeForDisplay [("title", Value.vStr "raw")] [titleLoadedField]
      = [("title", Value.vStr "LOADED")] := ⟨rfl, rfl⟩

/-- C6 amended: for a registered type and a valid input map, create
validates the input, runs the to-storage transform, stamps the author
column when the model declares one (the caller is always known, having
passed the admin gate), persists, and responds 201 with the created row
exactly as persisted — the save-transformed, possibly author-stamped
map — with no load hooks applied; invalid input is instead rejected
with the itemized violations. -/
theorem claim_C6_create_returns_raw (reg : Registry) (t : String)
    (ti : NodeTypeBase) (hreg : NodeRegistry.getTypeInfo reg t = some ti)
    (uid newPk : Nat) (body : VMap)
    (hvalid : validateNodeData body (ti.fields.getD []) = []) :
    createNode reg t uid body newPk
      = .created ⟨newPk,
          if ti.hasAuthorAttr then
            aset (processNodeForSave body (ti.fields.getD []) [])
              "authorId" (.vNum uid)
          else processNodeForSave body (ti.fields.getD []) []⟩
    ∧ (∀ body' : VMap, validateNodeData body' (ti.fields.getD []) ≠ [] →
        createNode reg t uid body' newPk
          = .invalid (validateNodeData body' (ti.fields.getD []))) := by
  have hreg' : regGet reg t = some ti := hreg
  have hr : NodeRegistry.isTypeRegistered reg t = true := by
    simp [NodeRegistry.isTypeRegistered, hreg']
  constructor
  · simp [createNode, hr, NodeRegistry.getModelByType,
      NodeRegistry.getTypeInfo, hreg', hvalid]
  · intro body' hbad
    simp [createNode, hr, NodeRegistry.getModelByType,
      NodeRegistry.getTypeInfo, hreg',
      List.isEmpty_eq_false_iff_exists_mem.mpr
        (List.exists_mem_of_ne_nil _ hbad)]

/-- Witness for the amended C6: creating a valid row for the
author-less `post` type returns it verbatim, and for the
`authorId`-bearing `story` type returns it with the caller's id
stamped. -/
theorem claim_C6_witness :
    createNode regPost "post" 7 [("title", Value.vStr "x")] 5
      = .created ⟨5, [("title", Value.vStr "x")]⟩
    ∧ createNode regStory "story" 7 [("title", Value.vStr "x")] 5
      = .created ⟨5, [("title", Value.vStr "x"),
                      ("authorId", Value.vNum 7)]⟩ := by
  constructor
  · have h := (claim_C6_create_returns_raw regPost "post" postEntry rfl
      7 5 [("title", Value.vStr "x")] rfl).1
    simpa [postEntry, titleLoadedField, processNodeForSave, saveStep,
      aget] using h
  · have h := (claim_C6_create_returns_raw regStory "story" authoredEntry
      rfl 7 5 [("title", Value.vStr "x")] rfl).1
    simpa [authoredEntry, plainTextField, processNodeForSave, saveStep,
      aget, aset] using h

/-- C5 counterexample: the CRUD engine's get-by-id
(`GET /node-builder/types/:type/nodes/:id`) performs no slug fallback:
with the only `page` row stored under primary key 1 and slug `about`,
getting the non-numeric identifier `about` reports not-found (first
conjunct) even though a lookup on the declared slug field finds the row
(second conjunct) — refuting the claimed fallback and, in particular,
the claimed retrievability by slug through the CRUD engine. -/
theorem claim_C5_counterexample :
    nodeBuilderGetNode regAbout "page" "about" = .notFoundNode
    ∧ findBySlugColumn pageAboutEntry.instances "slug" "about"
      = some aboutRow := ⟨rfl, rfl⟩

/-- C5 amended: get-by-id splits by handler.  The admin CRUD engine
(node-builder) fetches by numeric primary key only: a pk miss is
not-found with no slug fallback, and a pk hit returns the display
transform of the row.  The public node controller fetches by pk first
and, when that misses and the type declares a slug field, falls back to
a slug-column lookup with the same identifier — regardless of whether
the identifier is numeric — reporting not-found only when both miss (or
when no slug field is declared). -/
theorem claim_C5_amended_get_by_id (reg : Registry) (t id : String)
    (ti : NodeTypeBase) (hreg : NodeRegistry.getTypeInfo reg t = some ti) :
    (findByPkStr ti.instances id = none →
      nodeBuilderGetNode reg t id = .notFoundNode)
    ∧ (∀ n, findByPkStr ti.instances id = some n →
        nodeBuilderGetNode reg t id
          = .ok (processNodeForDisplay n.data (ti.fields.getD [])))
    ∧ (∀ n, findByPkStr ti.instances id = some n →
        nodeControllerGetNode reg t id = .ok n)
    ∧ (findByPkStr ti.instances id = none →
        ∀ sf, NodeRegistry.getSlugField reg t = some sf →
          ((∀ n, findBySlugColumn ti.instances sf.name id = some n →
              nodeControllerGetNode reg t id = .ok n)
           ∧ (findBySlugColumn ti.instances sf.name id = none →
              nodeControllerGetNode reg t id = .notFoundNode)))
    ∧ (findByPkStr ti.instances id = none →
        NodeRegistry.getSlugField reg t = none →
        nodeControllerGetNode reg t id = .notFoundNode) := by
  have hreg' : regGet reg t = some ti := hreg
  have hr : NodeRegistry.isTypeRegistered reg t = true := by
    simp [NodeRegistry.isTypeRegistered, hreg']
  refine ⟨?_, ?_, ?_, ?_, ?_⟩
  · intro hpk
    simp [nodeBuilderGetNode, hr, NodeRegistry.getModelByType,
      NodeRegistry.getTypeInfo, hreg', hpk]
  · intro n hpk
    simp [nodeBuilderGetNode, hr, NodeRegistry.getModelByType,
      NodeRegistry.getTypeInfo, hreg', hpk]
  · intro n hpk
    simp [nodeControllerGetNode, NodeRegistry.getModelByType, hreg', hpk]
  · intro hpk sf hsf
    constructor
    · intro n hslug
      simp [nodeControllerGetNode, NodeRegistry.getModelByType, hreg',
        hpk, hsf, hslug]
    · intro hslug
      simp [nodeControllerGetNode, NodeRegistry.getModelByType, hreg',
        hpk, hsf, hslug]
  · intro hpk hsf
    simp [nodeControllerGetNode, NodeRegistry.getModelByType, hreg',
      hpk, hsf]

/-- Witness for the amended C5: on the fixture registry, the public
controller retrieves the `about` row both by its numeric id `1` and by
its slug `about`, while the CRUD engine retrieves it by id `1`. -/
theorem claim_C5_witness :
    nodeControllerGetNode regAbout "page" "about" = .ok aboutRow
    ∧ nodeControllerGetNode regAbout "page" "1" = .ok aboutRow
    ∧ nodeBuilderGetNode regAbout "page" "1"
      = .ok (processNodeForDisplay aboutRow.data
          (pageAboutEntry.fields.getD [])) :=
  ⟨((claim_C5_amended_get_by_id regAbout "page" "about" pageAboutEntry
      rfl).2.2.2.1 rfl slugFieldFix rfl).1 aboutRow rfl,
   (claim_C5_amended_get_by_id regAbout "page" "1" pageAboutEntry
      rfl).2.2.1 aboutRow rfl,
   (claim_C5_amended_get_by_id regAbout "page" "1" pageAboutEntry
      rfl).2.1 aboutRow rfl⟩

theorem findNodeBySlug_eq_claim (reg : Registry) (ti : NodeTypeBase)
    (h : regGet reg ti.type = some ti) (key : String) :
    findNodeBySlug reg ti.type key = claimFindByKey ti key := by
  have hsf : NodeRegistry.getSlugField reg ti.type
      = ti.fields.bind
          (fun fs => fs.find? (fun f => f.type == FieldType.slug)) := by
    simp [NodeRegistry.getSlugField, NodeRegistry.getFieldsByType, h]
  unfold findNodeBySlug claimFindByKey
  rw [show NodeRegistry.getModelByType reg ti.type = some ti from h]
  by_cases hd : isAllDigits key
  · simp only [hd, if_true, findByPkStr]
    cases hfind : ti.instances.find? (fun r => r.pk == natOfDigits key) with
    | some n => rfl
    | none =>
      rw [hsf]
      cases ti.fields with
      | none => rfl
      | some fs =>
        cases fs.find? (fun f => f.type == FieldType.slug) with
        | none => rfl
        | some sf => rfl
  · simp only [hd, Bool.false_eq_true, if_false]
    rw [hsf]
    cases ti.fields with
    | none => rfl
    | some fs =>
      cases fs.find? (fun f => f.type == FieldType.slug) with
      | none => rfl
      | some sf => rfl

theorem resolveLoop_eq_claim (reg : Registry) (segs : List String) :
    ∀ l : List NodeTypeBase, (∀ ti ∈ l, regGet reg ti.type = some ti) →
      resolveLoop reg segs l
        = match l.findSome? (fun ti =>
            ((claimLookupKey ti segs).bind (claimFindByKey ti)).map
              (fun n => (n, ti.type))) with
          | some p => ResolveResult.found p.1 p.2
          | none => ResolveResult.notFound := by
  intro l
  induction l with
  | nil => intro _; rfl
  | cons ti rest ih =>
    intro hl
    have hti : regGet reg ti.type = some ti := hl ti (List.mem_cons_self _ _)
    have hrest : ∀ x ∈ rest, regGet reg x.type = some x :=
      fun x hx => hl x (List.mem_cons_of_mem _ hx)
    rw [List.findSome?_cons]
    unfold resolveLoop
    cases hds : declSubpath ti with
    | some sp =>
      by_cases hc : 2 ≤ segs.length ∧ joinSlash segs.dropLast = sp
      · have hk : claimLookupKey ti segs
            = some (segs.getLast?.getD "") := by
          simp [claimLookupKey, hds, hc]
        rw [hk,
          findNodeBySlug_eq_claim reg ti hti (segs.getLast?.getD "")]
        simp only [Option.bind_some]
        cases hfind : claimFindByKey ti (segs.getLast?.getD "") with
        | some n => simp [hc, hfind]
        | none => simp [hc, hfind, ih hrest]
      · have hk : claimLookupKey ti segs = none := by
          simp [claimLookupKey, hds, hc]
        rw [hk]
        simp [hc, ih hrest]
    | none =>
      have hk : claimLookupKey ti segs = some (joinSlash segs) := by
        simp [claimLookupKey, hds]
      rw [hk, findNodeBySlug_eq_claim reg ti hti (joinSlash segs)]
      simp only [Option.bind_some]
      cases hfind : claimFindByKey ti (joinSlash segs) with
      | some n => simp [hfind]
      | none => simp [hfind, ih hrest]

/-- C1: for every well-formed registry, `resolveNodeByPath` coincides
with the claim's description `claimResolve`: it iterates the registered
node types in registration order and returns the first
(instance, type name) pair that matches, where a type with a declared
(truthy) subpath matches only when there are at least two segments and
all but the last joined with `/` equal the subpath exactly (the last
segment being the lookup key), a type with no subpath uses the entire
joined path as the key, key lookup tries the numeric primary key first
when the key is all digits and then the type's slug field, the empty
segment list yields the invalid-path error, and no match yields
not-found. -/
theorem claim_C1_resolve_matches_spec (reg : Registry)
    (hwf : RegistryWF reg) (segs : List String) :
    resolveNodeByPath reg segs = claimResolve reg segs := by
  have hall : ∀ ti ∈ NodeRegistry.getAllTypeInfos reg,
      regGet reg ti.type = some ti := by
    intro ti hti
    rcases List.mem_map.mp hti with ⟨p, hp, rfl⟩
    have h1 := hwf.1 p hp
    have h2 := regGet_of_nodup reg hwf.2 p hp
    rw [h1] at h2
    exact h2
  unfold resolveNodeByPath claimResolve
  by_cases he : segs.length < 1
  · have hnil : segs = [] := List.length_eq_zero.mp (Nat.lt_one_iff.mp he)
    subst hnil
    rfl
  · have hne : ¬segs.isEmpty := by
      cases segs with
      | nil => exact absurd (by simp) he
      | cons a t => simp
    rw [if_neg he, if_neg (by simpa using hne)]
    exact resolveLoop_eq_claim reg segs (NodeRegistry.getAllTypeInfos reg)
      hall

/-- Witness for C1: the fixture registry is well formed and the code
resolver agrees with the claim-side resolver on the subpath route
`blog/hello-world`, the plain route `home`, and a miss. -/
theorem claim_C1_witness :
    RegistryWF regFix
    ∧ resolveNodeByPath regFix ["blog", "hello-world"]
      = claimResolve regFix ["blog", "hello-world"]
    ∧ resolveNodeByPath regFix ["home"] = claimResolve regFix ["home"]
    ∧ resolveNodeByPath regFix ["nope"] = claimResolve regFix ["nope"] := by
  have hwf : RegistryWF regFix := by
    constructor
    · intro p hp
      simp only [regFix, List.mem_cons, List.not_mem_nil, or_false] at hp
      rcases hp with rfl | rfl
      · rfl
      · rfl
    · simp [regFix]
  exact ⟨hwf,
    claim_C1_resolve_matches_spec regFix hwf ["blog", "hello-world"],
    claim_C1_resolve_matches_spec regFix hwf ["home"],
    claim_C1_resolve_matches_spec regFix hwf ["nope"]⟩
